import Mathlib

/-!
Verification of the search / retrieval subsystem of the supermind knowledge
capture app: the hybrid ranking function (`search_content`, SQL), the cache
service (`src/services/cacheService.ts`), the pagination and delete logic of
the cards component, and the search orchestration effect (`doSearch`).

Shallow embedding conventions:
  * nullable TS / SQL fields become `Option`;
  * JavaScript timestamps (`Date.now()`, `getTime()`) become `Int` milliseconds;
  * PostgreSQL float similarity scores become `ℚ`;
  * the external pg_trgm / vector primitives (`similarity`,
    `strict_word_similarity`, `<=>`, `plainto_tsquery` matching,
    `embedding_vector`) are opaque parameters, bundled in `PgFns`;
  * `AsyncStorage` is a pure key-value map passed through explicitly;
  * JS `Array.prototype.sort` with a comparator (stable in Hermes / modern
    engines) and SQL `ORDER BY` reading rows in table order are both embedded
    as a stable insertion sort by a weak "may precede" predicate.
-/

/-- JavaScript `hay.includes(needle)` on lists of characters: `needle` occurs
contiguously inside `hay`.  Matches JS in returning `true` for the empty
needle. -/
def charsMatchAt : List Char → List Char → Bool
  | [], _ => true
  | _ :: _, [] => false
  | a :: as, b :: bs => a = b && charsMatchAt as bs

/-- Scan of all start positions for `charsMatchAt`. -/
def charsHasSub (needle : List Char) : List Char → Bool
  | [] => charsMatchAt needle []
  | c :: cs => charsMatchAt needle (c :: cs) || charsHasSub needle cs

/-- JavaScript `hay.includes(needle)` on strings. -/
def strIncludes (hay needle : String) : Bool :=
  charsHasSub needle.toList hay.toList

/-- JavaScript `s.toLowerCase()`, modelled as per-character case folding
(the JS Unicode folding agrees with `Char.toLower` on ASCII, which is all the
embedded code paths compare). -/
def jsToLower (s : String) : String :=
  String.mk (s.data.map Char.toLower)

/-- Whitespace test used by `jsTrim`. -/
def wsChar (c : Char) : Bool := c.isWhitespace

/-- JavaScript `s.trim()`: strip leading and trailing whitespace. -/
def jsTrim (s : String) : String :=
  String.mk (((s.data.dropWhile wsChar).reverse.dropWhile wsChar).reverse)

/-- Stable insertion of `x` into `l`: `x` is placed before the first element
`y` such that `x` may precede `y` according to the weak (reflexive on ties)
total predicate `r`.  Used to embed both the stable JS comparator sort and
the SQL `ORDER BY` read in table order: elements are processed in original
order, so placing `x` before the first `y` it ties with keeps the original
relative order of ties. -/
def stableInsert (r : α → α → Bool) (x : α) : List α → List α
  | [] => [x]
  | y :: ys => if r x y then x :: y :: ys else y :: stableInsert r x ys

/-- Stable sort by the weak "may precede" predicate `r`: ties keep their
original relative order. -/
def stableSortBy (r : α → α → Bool) : List α → List α
  | [] => []
  | x :: xs => stableInsert r x (stableSortBy r xs)

/-! ## Data model: client-side items and the cache projection -/

/-- A client-side item row as returned by the Supabase `content` table and
held in `cardsData`.  Nullable TS fields are `Option`; absence of `id` is
modelled as the empty string, matching the JS falsy test in
`item.id || item.ID`.  `date_added` and `updated_at` are epoch milliseconds
(`new Date(x).getTime()`).  `title_embedding` stands for the enrichment
vector that the cache projection must drop. -/
structure Item where
  id : String
  ID : String
  user_id : String
  title : Option String
  thumbnail_url : Option String
  original_url : Option String
  date_added : Int
  updated_at : Option Int
  user_notes : Option String
  tags : Option String
  video_type : Option String
  summary : Option String
  is_carousel : Option Bool
  media_count : Option Nat
  title_embedding : Option (List ℚ)
  deriving Repr, DecidableEq

/-- The reduced cache projection (`CacheItem` in `cacheService.ts`): only the
fields needed for list rendering and local filtering; no `user_id`, no
embeddings. -/
structure CacheItem where
  id : String
  title : Option String
  thumbnail_url : Option String
  original_url : Option String
  date_added : Option Int
  updated_at : Option Int
  user_notes : Option String
  tags : Option String
  video_type : Option String
  summary : Option String
  is_carousel : Option Bool
  media_count : Option Nat
  deriving Repr, DecidableEq

/-- JavaScript `a || b` on the two id fields: `item.id || item.ID`, with the
empty string playing the falsy role. -/
def jsIdOf (item : Item) : String :=
  if item.id = "" then item.ID else item.id

/-- Projection of one item to its cache schema (body of the `map` inside
`sanitizeDataForCache`). -/
def projectItem (item : Item) : CacheItem :=
  { id := jsIdOf item
    title := item.title
    thumbnail_url := item.thumbnail_url
    original_url := item.original_url
    date_added := some item.date_added
    updated_at := item.updated_at
    user_notes := item.user_notes
    tags := item.tags
    video_type := item.video_type
    summary := item.summary
    is_carousel := item.is_carousel
    media_count := item.media_count }

/-! ## Cache Store (`src/services/cacheService.ts`) -/

/-- TTL constant `CACHE_EXPIRY = 5 * 60 * 1000` milliseconds. -/
def CACHE_EXPIRY : Int := 5 * 60 * 1000

/-- Storage key constant `CACHE_KEY = 'cards_cache'`.  Note that it contains
no owner component. -/
def CACHE_KEY : String := "cards_cache"

/-- Item-count bound `MAX_CACHE_SIZE = 100`. -/
def MAX_CACHE_SIZE : Nat := 100

/-- The parsed value stored under `CACHE_KEY` (`CacheData` in the source). -/
structure CacheData where
  data : List CacheItem
  timestamp : Int
  version : Nat
  deriving Repr, DecidableEq

/-- AsyncStorage, restricted to values that parse as `CacheData`: a pure
key-to-value map. -/
def Storage : Type := String → Option CacheData

/-- AsyncStorage.setItem. -/
def storageSet (st : Storage) (key : String) (v : CacheData) : Storage :=
  fun k => if k = key then some v else st k

/-- AsyncStorage.removeItem. -/
def storageRemove (st : Storage) (key : String) : Storage :=
  fun k => if k = key then none else st k

/-- The byte size `new Blob([JSON.stringify(cacheData)]).size` is an external
measurement; theorems quantify over an arbitrary size oracle of this type. -/
def SizeFn : Type := CacheData → Nat

/-- cacheService.sanitizeDataForCache: slice to the first `MAX_CACHE_SIZE`
items, then project each item to the reduced schema. -/
def sanitizeDataForCache (data : List Item) : List CacheItem :=
  (data.take MAX_CACHE_SIZE).map projectItem

/-- cacheService.setCache, success path: sanitize, wrap with the current
timestamp and version 1, and if the serialized size exceeds 500000 bytes
store only the first 20 sanitized items, else store them all. -/
def setCache (sizeFn : SizeFn) (now : Int) (data : List Item) (st : Storage) :
    Storage :=
  let sanitizedData := sanitizeDataForCache data
  let cacheData : CacheData := ⟨sanitizedData, now, 1⟩
  if sizeFn cacheData > 500000 then
    storageSet st CACHE_KEY ⟨sanitizedData.take 20, now, 1⟩
  else
    storageSet st CACHE_KEY cacheData

/-- cacheService.getCache: returns `none` when no entry exists; when the entry
is older than `CACHE_EXPIRY` it is removed (lazy eviction) and `none` is
returned; otherwise the stored item list is returned.  The second component
is the storage after the read. -/
def getCache (now : Int) (st : Storage) : Option (List CacheItem) × Storage :=
  match st CACHE_KEY with
  | none => (none, st)
  | some cacheData =>
      if now - cacheData.timestamp > CACHE_EXPIRY then
        (none, storageRemove st CACHE_KEY)
      else
        (some cacheData.data, st)

/-- cacheService.clearCache. -/
def clearCache (st : Storage) : Storage :=
  storageRemove st CACHE_KEY

/-- Result shape of cacheService.getCacheInfo. -/
structure CacheInfo where
  exists_ : Bool
  size : Nat
  itemCount : Nat
  deriving Repr, DecidableEq

/-- cacheService.getCacheInfo: diagnostic accessor; `exists_` is false exactly
when nothing is stored under `CACHE_KEY`. -/
def getCacheInfo (sizeFn : SizeFn) (st : Storage) : CacheInfo :=
  match st CACHE_KEY with
  | none => ⟨false, 0, 0⟩
  | some cacheData => ⟨true, sizeFn cacheData, cacheData.data.length⟩

/-! ## Owner sessions (for the owner-scoping claim)

`handleLogout` in `hamburger.tsx` only calls `supabase.auth.signOut()`; the
cards cache is not touched, and `CACHE_KEY` has no owner component. -/

/-- Ambient client session: the currently authenticated owner (if any) plus
the device-local AsyncStorage. -/
structure AppSession where
  currentUser : Option String
  storage : Storage

/-- handleLogout: signs the user out; storage is left untouched. -/
def signOut (s : AppSession) : AppSession :=
  { s with currentUser := none }

/-- Signing in as `u`: sets the authenticated owner; storage is left
untouched. -/
def signIn (u : String) (s : AppSession) : AppSession :=
  { s with currentUser := some u }

/-! ## Ranking Engine (`search_content` SQL function)

The pg_trgm functions `similarity` and `strict_word_similarity`, the cosine
distance operator `<=>`, the query embedding `embedding_vector` and the
tsvector/tsquery matching are PostgreSQL extension primitives external to the
repository; they are opaque parameters bundled in `PgFns`.  SQL `NULL`
propagation is handled by the wrappers below: a similarity applied to a NULL
column is NULL, `greatest` ignores NULL arguments, a NULL comparison is not
satisfied. -/

/-- A row of the `content` table, restricted to the columns `search_content`
reads. -/
structure ContentRow where
  id : String
  title : Option String
  channel_name : Option String
  video_type : Option String
  tags : Option String
  summary : Option String
  thumbnail_url : Option String
  original_url : Option String
  user_notes : Option String
  date_added : Int
  user_id : String
  title_embedding : Option (List ℚ)
  deriving Repr, DecidableEq

/-- External PostgreSQL primitives used by `search_content`, on non-NULL
arguments. -/
structure PgFns where
  similarity : String → String → ℚ
  word_similarity : String → String → ℚ
  cosDistance : List ℚ → List ℚ → ℚ
  embedQuery : String → Option (List ℚ)
  tsMatch : List String → String → Bool

/-- SQL `greatest` over possibly-NULL values: NULL arguments are ignored;
the result is NULL only when every argument is NULL. -/
def optMax : Option ℚ → Option ℚ → Option ℚ
  | none, b => b
  | some a, none => some a
  | some a, some b => some (max a b)

/-- SQL `greatest` of a list of possibly-NULL values. -/
def sqlGreatest (l : List (Option ℚ)) : Option ℚ :=
  l.foldr optMax none

/-- SQL `x > t` under three-valued logic: NULL compares as not satisfied. -/
def optGT (x : Option ℚ) (t : ℚ) : Bool :=
  match x with
  | none => false
  | some v => t < v

/-- SQL `x < t` under three-valued logic: NULL compares as not satisfied. -/
def optLT (x : Option ℚ) (t : ℚ) : Bool :=
  match x with
  | none => false
  | some v => v < t

/-- NULL-propagating application of a binary similarity to a nullable column
and the (non-null) query. -/
def optSim (f : String → String → ℚ) (col : Option String) (q : String) :
    Option ℚ :=
  col.map (fun s => f s q)

/-- The `c.title_embedding <=> embedding_vector(search_query)` distance:
NULL when either the row embedding or the query embedding is NULL. -/
def vecDistance (F : PgFns) (rowEmb : Option (List ℚ)) (qEmb : Option (List ℚ)) :
    Option ℚ :=
  match rowEmb, qEmb with
  | some e, some qe => some (F.cosDistance e qe)
  | _, _ => none

/-- The `similarity` column of the `combined_search` CTE, with the source
nesting kept: `greatest` of (a) the `greatest` of the five `similarity`
scores over title, summary, tags, channel_name, user_notes, (b) the
`coalesce`d vector similarity `1 - distance` (0 when NULL), and (c) the
`greatest` of the four `strict_word_similarity` scores over title, summary,
tags, user_notes. -/
def rowScore (F : PgFns) (c : ContentRow) (search_query : String)
    (qEmb : Option (List ℚ)) : ℚ :=
  (sqlGreatest
    [ sqlGreatest
        [ optSim F.similarity c.title search_query
        , optSim F.similarity c.summary search_query
        , optSim F.similarity c.tags search_query
        , optSim F.similarity c.channel_name search_query
        , optSim F.similarity c.user_notes search_query ]
    , some ((vecDistance F c.title_embedding qEmb).map (fun d => 1 - d)
        |>.getD 0)
    , sqlGreatest
        [ optSim F.word_similarity c.title search_query
        , optSim F.word_similarity c.summary search_query
        , optSim F.word_similarity c.tags search_query
        , optSim F.word_similarity c.user_notes search_query ] ]).getD 0

/-- The `WHERE` clause of the CTE, minus the owner filter: full-text match of
the concatenated tsvector of the six coalesced text columns, OR any of the
five fuzzy `similarity` scores above `similarity_threshold`, OR vector
distance below `1 - similarity_threshold`. -/
def isCandidate (F : PgFns) (c : ContentRow) (search_query : String)
    (similarity_threshold : ℚ) (qEmb : Option (List ℚ)) : Bool :=
  F.tsMatch
      [ c.title.getD "", c.summary.getD "", c.tags.getD ""
      , c.channel_name.getD "", c.user_notes.getD "", c.video_type.getD "" ]
      search_query
  || optGT (optSim F.similarity c.title search_query) similarity_threshold
  || optGT (optSim F.similarity c.summary search_query) similarity_threshold
  || optGT (optSim F.similarity c.tags search_query) similarity_threshold
  || optGT (optSim F.similarity c.channel_name search_query) similarity_threshold
  || optGT (optSim F.similarity c.user_notes search_query) similarity_threshold
  || optLT (vecDistance F c.title_embedding qEmb) (1 - similarity_threshold)

/-- The `search_content` SQL function: scoped to `user_id_input`, filtered by
the candidate predicate, scored, kept when score strictly exceeds the
threshold, ordered by descending score (the SQL has no further ORDER BY key;
ties are read in table order, embedded as a stable sort), and capped at
`max_results`.  The output column projection of the final SELECT is a
field-forgetting map and is left implicit: results are (row, similarity)
pairs. -/
def search_content (F : PgFns) (content : List ContentRow)
    (search_query : String) (user_id_input : String)
    (similarity_threshold : ℚ := 1/10) (max_results : Nat := 100) :
    List (ContentRow × ℚ) :=
  let qEmb := F.embedQuery search_query
  let owned := content.filter (fun c => c.user_id = user_id_input)
  let candidates :=
    owned.filter (fun c => isCandidate F c search_query similarity_threshold qEmb)
  let combined_search :=
    candidates.map (fun c => (c, rowScore F c search_query qEmb))
  let kept := combined_search.filter (fun p => similarity_threshold < p.2)
  (stableSortBy (fun a b => b.2 ≤ a.2) kept).take max_results

/-! ## Spec-side formulation of the ranking score (for claim C7)

These definitions follow the wording of the specification ("per-item score =
max over all three signals and all fields"), to be compared with the
source-derived `rowScore` / `isCandidate` above. -/

/-- The similarity signals of one kind that are actually present (non-NULL
field), over a list of nullable fields. -/
def presentSims (f : String → String → ℚ) (fields : List (Option String))
    (q : String) : List ℚ :=
  fields.filterMap (fun col => optSim f col q)

/-- The five searched fields named by the claim: title, summary, tags,
sourceName (channel_name) and userNotes. -/
def claimFields (c : ContentRow) : List (Option String) :=
  [c.title, c.summary, c.tags, c.channel_name, c.user_notes]

/-- The four fields the source actually feeds to `strict_word_similarity`:
channel_name is absent. -/
def wordFields (c : ContentRow) : List (Option String) :=
  [c.title, c.summary, c.tags, c.user_notes]

/-- The vector signal: title-embedding cosine similarity, 0 when the row
embedding or the query embedding is absent. -/
def vecSignal (F : PgFns) (c : ContentRow) (qEmb : Option (List ℚ)) : ℚ :=
  ((vecDistance F c.title_embedding qEmb).map (fun d => 1 - d)).getD 0

/-- The score as claim C7 states it: maximum over the fuzzy signal on all
five fields, the trigram word signal on all five fields (including
sourceName), and the vector signal. -/
def claimScoreC7 (F : PgFns) (c : ContentRow) (q : String)
    (qEmb : Option (List ℚ)) : ℚ :=
  (presentSims F.similarity (claimFields c) q
    ++ presentSims F.word_similarity (claimFields c) q).foldl max
    (vecSignal F c qEmb)

/-- The score with the claim amended to match the source: the trigram word
signal ranges over title, summary, tags and userNotes only. -/
def specScoreAmended (F : PgFns) (c : ContentRow) (q : String)
    (qEmb : Option (List ℚ)) : ℚ :=
  (presentSims F.similarity (claimFields c) q
    ++ presentSims F.word_similarity (wordFields c) q).foldl max
    (vecSignal F c qEmb)

/-- The candidate predicate as claim C7 states it: lexical tsvector match, OR
some fuzzy similarity above the threshold, OR vector distance below
`1 - similarity_threshold`. -/
def claimCandidate (F : PgFns) (c : ContentRow) (q : String)
    (similarity_threshold : ℚ) (qEmb : Option (List ℚ)) : Bool :=
  F.tsMatch
      [ c.title.getD "", c.summary.getD "", c.tags.getD ""
      , c.channel_name.getD "", c.user_notes.getD "", c.video_type.getD "" ]
      q
  || (claimFields c).any
      (fun col => optGT (optSim F.similarity col q) similarity_threshold)
  || optLT (vecDistance F c.title_embedding qEmb) (1 - similarity_threshold)

/-! ## Cards component (`cards.tsx`, `part_005`): sorting, pagination, delete -/

/-- The three sort orders of the settings context. -/
inductive SortType where
  | newest
  | oldest
  | modified
  deriving Repr, DecidableEq

/-- Modified date used by the `modified` order: `updated_at` falling back to
`date_added` (JS truthiness test on `updated_at`). -/
def modifiedDate (item : Item) : Int :=
  item.updated_at.getD item.date_added

/-- The comparator of `sortCards` as a strict "precedes" predicate: `a` sorts
strictly before `b` exactly when the JS comparator returns a negative
number. -/
def sortPrecedes (order : SortType) (a b : Item) : Bool :=
  match order with
  | .newest => b.date_added < a.date_added
  | .oldest => a.date_added < b.date_added
  | .modified => modifiedDate b < modifiedDate a

/-- sortCards: stable comparator sort of a copy of the data; `a` may precede
`b` exactly when the comparator does not require `b` strictly before `a`. -/
def sortCards (data : List Item) (order : SortType) : List Item :=
  stableSortBy (fun a b => ! sortPrecedes order b a) data

/-- Page size constant `PAGE_SIZE = 50`. -/
def PAGE_SIZE : Nat := 50

/-- Outcome of an awaited `getVideoData` call: a row list, or a thrown
error / invalid payload. -/
inductive FetchResult where
  | ok (rows : List Item)
  | error
  deriving Repr, DecidableEq

/-- The mutable component state touched by `loadMoreCards` and
`handleDelete`.  `searchTerm` is `searchTermRef.current`; `storage` is the
AsyncStorage behind the cache service. -/
structure CardsState where
  cardsData : List Item
  filteredData : List Item
  currentPage : Nat
  hasMore : Bool
  loadingMore : Bool
  searchTerm : String
  sortOrder : SortType
  userId : Option String
  storage : Storage

/-- loadMoreCards.  `fetch` is the awaited `getVideoData(offset, PAGE_SIZE)`
call (network oracle); the second component of the result records the
`(offset, limit)` argument pairs of the fetches actually issued.  Early
return when a load is in flight, when `hasMore` is false, or when there is no
user; otherwise the returned rows are concatenated after the existing
`cardsData` (no deduplication in the source), the merged list is re-sorted,
`hasMore` becomes `returned count == PAGE_SIZE`, and the sorted merge is
written to the cache. -/
def loadMoreCards (fetch : Nat → Nat → FetchResult) (sizeFn : SizeFn)
    (now : Int) (s : CardsState) : CardsState × List (Nat × Nat) :=
  if s.loadingMore ∨ s.hasMore = false ∨ s.userId = none then
    (s, [])
  else
    let nextPage := s.currentPage + 1
    let offset := nextPage * PAGE_SIZE
    match fetch offset PAGE_SIZE with
    | .ok newData =>
        if newData.length > 0 then
          let mergedData := s.cardsData ++ newData
          let sortedData := sortCards mergedData s.sortOrder
          ({ s with
              hasMore := newData.length = PAGE_SIZE
              currentPage := nextPage
              cardsData := sortedData
              filteredData :=
                if jsTrim s.searchTerm = "" then sortedData else s.filteredData
              storage := setCache sizeFn now sortedData s.storage
              loadingMore := false },
            [(offset, PAGE_SIZE)])
        else
          ({ s with hasMore := false, loadingMore := false },
            [(offset, PAGE_SIZE)])
    | .error =>
        ({ s with hasMore := false, loadingMore := false },
          [(offset, PAGE_SIZE)])

/-- The direct Supabase query path of `getVideoData` in
`src/services/api.ts`: all `content` rows of the authenticated user, ordered
by `date_added` descending.  The function takes no offset or limit: the
pagination arguments passed by `loadMoreCards` are ignored by the callee. -/
def getVideoDataModel (table : List Item) (userId : String) : List Item :=
  stableSortBy (fun a b => b.date_added ≤ a.date_added)
    (table.filter (fun r => r.user_id = userId))

/-- getVideoData as seen from the `loadMoreCards` call site: a fetch that
ignores its `(offset, limit)` arguments and returns the full collection. -/
def getVideoDataFetch (table : List Item) (userId : String) :
    Nat → Nat → FetchResult :=
  fun _offset _limit => .ok (getVideoDataModel table userId)

/-- The user-visible outcome of `handleDelete` (`Alert.alert`). -/
inductive DeleteAlert where
  | successAlert
  | errorAlert
  deriving Repr, DecidableEq

/-- handleDelete: `deleteContent(itemId)` is awaited FIRST; only when it
resolves is the item filtered out of `cardsData` and `filteredData`.  When
the backend call throws, the state is left unchanged and an error alert is
shown. -/
def handleDelete (backendOk : Bool) (itemId : String) (s : CardsState) :
    CardsState × DeleteAlert :=
  if backendOk then
    let newData := s.cardsData.filter (fun item => item.id ≠ itemId)
    ({ s with cardsData := newData, filteredData := newData },
      DeleteAlert.successAlert)
  else
    (s, DeleteAlert.errorAlert)

/-! ## Search Orchestrator (`doSearch` effect in `part_005`) -/

/-- JS `field?.toLowerCase().includes(q)` on a nullable field: an absent
field never matches. -/
def optJsIncludes (field : Option String) (q : String) : Bool :=
  match field with
  | none => false
  | some s => strIncludes (jsToLower s) q

/-- The local substring scan of the short-query branch of `doSearch`
(lines 260-268): case-insensitive containment over title, user notes and
tags of the in-memory collection. -/
def localSearchFilter (searchTerm : String) (cardsData : List Item) :
    List Item :=
  let q := jsToLower searchTerm
  cardsData.filter (fun item =>
    optJsIncludes item.title q
    || optJsIncludes item.user_notes q
    || optJsIncludes item.tags q)

/-- The substring scan of the catch branch of `doSearch` (lines 285-290),
kept as its own definition because the source duplicates the code. -/
def fallbackFilter (searchTerm : String) (cardsData : List Item) :
    List Item :=
  let q := jsToLower searchTerm
  cardsData.filter (fun item =>
    optJsIncludes item.title q
    || optJsIncludes item.user_notes q
    || optJsIncludes item.tags q)

/-- How `doSearch` classifies a settled query: empty (after trim) shows the
whole collection, short queries (length at most 3) are answered by the local
scan, longer queries dispatch a remote search session. -/
inductive SearchAction where
  | showAll (results : List Item)
  | localResults (results : List Item)
  | remote
  deriving Repr, DecidableEq

/-- The synchronous classification at the top of `doSearch`. -/
def classifySearch (searchTerm : String) (cardsData : List Item) :
    SearchAction :=
  if jsTrim searchTerm = "" then SearchAction.showAll cardsData
  else if searchTerm.length ≤ 3 then
    SearchAction.localResults (localSearchFilter searchTerm cardsData)
  else SearchAction.remote

/-- Orchestrator state: the session counter `searchIdRef.current`, the
displayed result set `filteredData`, the component error state (never
touched by `doSearch`), and a count of logged search failures
(`console.error` calls in the catch branch). -/
structure OrchState where
  searchId : Nat
  view : List Item
  error : Option String
  errorsLogged : Nat
  deriving Repr, DecidableEq

/-- Events of one orchestrator history.  `keystroke` is a `doSearch`
invocation for a settled query over the current in-memory collection; when
it classifies as remote it dispatches the session whose id is the
incremented counter.  `success sid results` is the arrival of that session's
response (`performSearch` resolved); `failure sid q cards` is its rejection
(`performSearch` threw), where `q` and `cards` are the invocation's captured
`searchTerm` and `cardsData`. -/
inductive OrchEvent where
  | keystroke (searchTerm : String) (cardsData : List Item)
  | success (sid : Nat) (results : List Item)
  | failure (sid : Nat) (searchTerm : String) (cardsData : List Item)

/-- One orchestrator step, read off `doSearch`: a late success is discarded
by the `searchIdRef.current !== currentSearchId` guard, but the catch branch
applies the local fallback unconditionally. -/
def orchStep (s : OrchState) : OrchEvent → OrchState
  | OrchEvent.keystroke q cards =>
      match classifySearch q cards with
      | SearchAction.showAll r => { s with view := r }
      | SearchAction.localResults r => { s with view := r }
      | SearchAction.remote => { s with searchId := s.searchId + 1 }
  | OrchEvent.success sid results =>
      if s.searchId = sid then { s with view := results } else s
  | OrchEvent.failure _sid q cards =>
      { s with
          view := fallbackFilter q cards
          errorsLogged := s.errorsLogged + 1 }

/-- Folding a list of events through `orchStep`. -/
def orchRun (s : OrchState) : List OrchEvent → OrchState
  | [] => s
  | e :: es => orchRun (orchStep s e) es

/-! ## Concrete sample values used by witnesses and counterexamples -/

/-- Empty AsyncStorage. -/
def emptyStorage : Storage := fun _ => none

/-- A size oracle that reports every payload as small. -/
def zeroSize : SizeFn := fun _ => 0

/-- A sample saved item owned by alice. -/
def itemA : Item :=
  { id := "a"
    ID := ""
    user_id := "alice"
    title := some "Pasta Recipe"
    thumbnail_url := none
    original_url := none
    date_added := 100
    updated_at := none
    user_notes := some "yum"
    tags := some "food"
    video_type := none
    summary := none
    is_carousel := none
    media_count := none
    title_embedding := none }

/-- A second sample item, newer than `itemA`. -/
def itemB : Item :=
  { itemA with id := "b", title := some "Trip Notes", date_added := 200 }


/-- Repeated invocation of `loadMoreCards`, collecting every fetch issued
across the calls. -/
def loadMoreIter (fetch : Nat → Nat → FetchResult) (sizeFn : SizeFn)
    (now : Int) : Nat → CardsState → CardsState × List (Nat × Nat)
  | 0, s => (s, [])
  | n + 1, s =>
      let r := loadMoreCards fetch sizeFn now s
      let r2 := loadMoreIter fetch sizeFn now n r.1
      (r2.1, r.2 ++ r2.2)

/-- A sample item owned by carol. -/
def itemC : Item :=
  { itemA with id := "c", user_id := "carol", date_added := 150 }

/-- A concrete cards-component state holding only `itemA`, first page loaded,
more pages expected, no search active. -/
def cardsStateA : CardsState :=
  { cardsData := [itemA]
    filteredData := [itemA]
    currentPage := 0
    hasMore := true
    loadingMore := false
    searchTerm := ""
    sortOrder := SortType.newest
    userId := some "alice"
    storage := emptyStorage }

/-- A session in which alice is signed in and her items have just been
cached. -/
def aliceSession : AppSession :=
  { currentUser := some "alice"
    storage := setCache zeroSize 0 [itemA] emptyStorage }

/-- The session after alice signs out and bob signs in: the ambient auth
state changes, the device storage does not. -/
def bobSession : AppSession :=
  signIn "bob" (signOut aliceSession)

/-- Concrete PostgreSQL primitives for the tie-break counterexample:
`similarity` is 2 on identical strings and 0 otherwise (integer-valued
scores keep kernel evaluation of ℚ cheap); the other signals are inert. -/
def pgFnsC2 : PgFns :=
  { similarity := fun s q => if s = q then 2 else 0
    word_similarity := fun _ _ => 0
    cosDistance := fun _ _ => 1
    embedQuery := fun _ => none
    tsMatch := fun _ _ => false }

/-- An older content row titled "pasta", owned by alice. -/
def rowOlder : ContentRow :=
  { id := "older"
    title := some "pasta"
    channel_name := none
    video_type := none
    tags := none
    summary := none
    thumbnail_url := none
    original_url := none
    user_notes := none
    date_added := 100
    user_id := "alice"
    title_embedding := none }

/-- A newer content row with the same title, owned by alice. -/
def rowNewer : ContentRow :=
  { rowOlder with id := "newer", date_added := 200 }

/-- Concrete PostgreSQL primitives for the word-similarity counterexample:
the fuzzy signal fires weakly on the title "t", the word signal fires
strongly on the channel name "chan". -/
def pgFnsC7 : PgFns :=
  { similarity := fun s _ => if s = "t" then 2 else 0
    word_similarity := fun s _ => if s = "chan" then 9 else 0
    cosDistance := fun _ _ => 1
    embedQuery := fun _ => none
    tsMatch := fun _ _ => false }

/-- A content row whose channel name carries the only strong signal. -/
def rowChan : ContentRow :=
  { rowOlder with id := "chanrow", title := some "t", channel_name := some "chan" }


/-! ## Auxiliary lemmas -/

theorem mem_stableInsert (r : α → α → Bool) (x : α) (l : List α) (a : α) :
    a ∈ stableInsert r x l ↔ a = x ∨ a ∈ l := by
  induction l with
  | nil => simp [stableInsert]
  | cons y ys ih =>
      by_cases h : r x y = true
      · simp [stableInsert, h]
      · simp only [stableInsert, if_neg h, List.mem_cons, ih]
        tauto

theorem mem_stableSortBy (r : α → α → Bool) (l : List α) (a : α) :
    a ∈ stableSortBy r l ↔ a ∈ l := by
  induction l with
  | nil => simp [stableSortBy]
  | cons x xs ih => simp [stableSortBy, mem_stableInsert, ih]

/-- Sortedness produced by `stableInsert`, for a total and transitive weak
predicate: every element of the output may precede all elements after it. -/
theorem sorted_stableInsert (r : α → α → Bool)
    (htot : ∀ a b, r a b = false → r b a = true)
    (htrans : ∀ a b c, r a b = true → r b c = true → r a c = true)
    (x : α) (l : List α) (hl : l.Pairwise (fun a b => r a b = true)) :
    (stableInsert r x l).Pairwise (fun a b => r a b = true) := by
  induction l with
  | nil => simp [stableInsert]
  | cons y ys ih =>
      rcases List.pairwise_cons.mp hl with ⟨hy, hys⟩
      by_cases h : r x y = true
      · rw [stableInsert, if_pos h]
        refine List.pairwise_cons.mpr ⟨?_, hl⟩
        intro b hb
        rcases List.mem_cons.mp hb with hb | hb
        · exact hb ▸ h
        · exact htrans x y b h (hy b hb)
      · rw [stableInsert, if_neg h]
        refine List.pairwise_cons.mpr ⟨?_, ih hys⟩
        intro b hb
        rcases (mem_stableInsert r x ys b).mp hb with hb | hb
        · exact hb ▸ htot x y (by simpa using h)
        · exact hy b hb

/-- Output of `stableSortBy` is sorted for a total transitive weak
predicate. -/
theorem sorted_stableSortBy (r : α → α → Bool)
    (htot : ∀ a b, r a b = false → r b a = true)
    (htrans : ∀ a b c, r a b = true → r b c = true → r a c = true)
    (l : List α) :
    (stableSortBy r l).Pairwise (fun a b => r a b = true) := by
  induction l with
  | nil => simp [stableSortBy]
  | cons x xs ih => exact sorted_stableInsert r htot htrans x _ ih

theorem optMax_none_right (a : Option ℚ) : optMax a none = a := by
  cases a <;> rfl

theorem optMax_assoc (a b c : Option ℚ) :
    optMax (optMax a b) c = optMax a (optMax b c) := by
  cases a <;> cases b <;> cases c <;> simp [optMax, max_assoc]

theorem optMax_comm (a b : Option ℚ) : optMax a b = optMax b a := by
  cases a <;> cases b <;> simp [optMax, max_comm]

theorem sqlGreatest_append (l1 l2 : List (Option ℚ)) :
    sqlGreatest (l1 ++ l2) = optMax (sqlGreatest l1) (sqlGreatest l2) := by
  induction l1 with
  | nil => simp [sqlGreatest, optMax]
  | cons x xs ih =>
      simp only [sqlGreatest, List.foldr_cons, List.cons_append] at *
      rw [ih, optMax_assoc]

/-- Unfolding `sqlGreatest` against a running maximum: the SQL greatest of a
list of nullable values, combined with a present value `v`, is the fold of
`max` over the present values starting at `v`. -/
theorem optMax_sqlGreatest_getD (l : List (Option ℚ)) (v d : ℚ) :
    (optMax (some v) (sqlGreatest l)).getD d = (l.filterMap id).foldl max v := by
  induction l generalizing v with
  | nil => simp [sqlGreatest, optMax]
  | cons x xs ih =>
      cases x with
      | none =>
          simpa [sqlGreatest, optMax] using ih v
      | some a =>
          have h1 : sqlGreatest (some a :: xs) = optMax (some a) (sqlGreatest xs) := rfl
          rw [h1, ← optMax_assoc]
          have h2 : optMax (some v) (some a) = some (max v a) := rfl
          rw [h2]
          simpa using ih (max v a)

theorem getD_sqlGreatest_three (A B : List (Option ℚ)) (v : ℚ) :
    (sqlGreatest [sqlGreatest A, some v, sqlGreatest B]).getD 0
      = ((A ++ B).filterMap id).foldl max v := by
  have h1 : sqlGreatest [sqlGreatest A, some v, sqlGreatest B]
      = optMax (sqlGreatest A) (optMax (some v) (sqlGreatest B)) := by
    simp [sqlGreatest, optMax_none_right]
  rw [h1, ← optMax_assoc, optMax_comm (sqlGreatest A) (some v), optMax_assoc,
    ← sqlGreatest_append, optMax_sqlGreatest_getD]

/-- The source score agrees with the spec-style flat maximum, once the word
similarity signal is restricted to the four fields the source reads. -/
theorem rowScore_eq_specScoreAmended (F : PgFns) (c : ContentRow) (q : String)
    (qEmb : Option (List ℚ)) :
    rowScore F c q qEmb = specScoreAmended F c q qEmb := by
  have h := getD_sqlGreatest_three
    ((claimFields c).map (fun col => optSim F.similarity col q))
    ((wordFields c).map (fun col => optSim F.word_similarity col q))
    (vecSignal F c qEmb)
  have h0 : rowScore F c q qEmb
      = (sqlGreatest
          [ sqlGreatest ((claimFields c).map (fun col => optSim F.similarity col q))
          , some (vecSignal F c qEmb)
          , sqlGreatest ((wordFields c).map
              (fun col => optSim F.word_similarity col q)) ]).getD 0 := rfl
  rw [h0, h]
  simp [specScoreAmended, presentSims, List.filterMap_append, List.filterMap_map,
    Function.comp]

/-- The source candidate predicate agrees with the claimed inclusion
predicate. -/
theorem isCandidate_eq_claimCandidate (F : PgFns) (c : ContentRow) (q : String)
    (similarity_threshold : ℚ) (qEmb : Option (List ℚ)) :
    isCandidate F c q similarity_threshold qEmb
      = claimCandidate F c q similarity_threshold qEmb := by
  simp [claimCandidate, isCandidate, claimFields, List.any, Bool.or_assoc]

/-- The session counter never decreases in one step. -/
theorem orchStep_searchId_mono (s : OrchState) (e : OrchEvent) :
    s.searchId ≤ (orchStep s e).searchId := by
  cases e with
  | keystroke q cards =>
      unfold orchStep
      cases hc : classifySearch q cards <;> simp [hc]
  | success sid results =>
      unfold orchStep
      by_cases h : s.searchId = sid <;> simp [h]
  | failure sid q cards => simp [orchStep]

/-- The session counter never decreases along any event history. -/
theorem orchRun_searchId_mono (s : OrchState) (es : List OrchEvent) :
    s.searchId ≤ (orchRun s es).searchId := by
  induction es generalizing s with
  | nil => exact le_refl _
  | cons e es ih =>
      exact le_trans (orchStep_searchId_mono s e) (ih (orchStep s e))

/-! ## Claim theorems -/

/-- Claim C4: for every query that is non-empty after trimming and of length
at most the short-query cutoff 3, `doSearch` classifies the query as a local
search answered by the synchronous case-insensitive substring scan of the
in-memory collection over title, user notes and tags; and no query of length
at most 3 is ever classified as a remote search (so no network call and no
ranking-engine invocation). -/
theorem shortQueryIsLocal (searchTerm : String) (cardsData : List Item)
    (hlen : searchTerm.length ≤ 3) :
    classifySearch searchTerm cardsData ≠ SearchAction.remote
    ∧ (jsTrim searchTerm ≠ "" →
        classifySearch searchTerm cardsData
          = SearchAction.localResults (localSearchFilter searchTerm cardsData)) := by
  unfold classifySearch
  by_cases ht : jsTrim searchTerm = "" <;> simp [ht, hlen]

/-- Witness for C4 at the concrete query "pas" over a two-item collection. -/
theorem shortQueryIsLocal_witness :
    ("pas".length ≤ 3 ∧ jsTrim "pas" ≠ "")
    ∧ classifySearch "pas" [itemA, itemB]
        = SearchAction.localResults (localSearchFilter "pas" [itemA, itemB]) :=
  ⟨⟨by decide, by decide⟩,
    (shortQueryIsLocal "pas" [itemA, itemB] (by decide)).2 (by decide)⟩

/-- Claim C5: a `setCache` followed by a `getCache` at most the TTL later
returns exactly the input items projected to the cache schema, truncated to
the first `MAX_CACHE_SIZE` items — or to the first 20 when the serialized
size exceeds the 500000-byte budget — in the input order. -/
theorem setCache_getCache_roundTrip (sizeFn : SizeFn) (tset tget : Int)
    (data : List Item) (st : Storage)
    (h : tget - tset ≤ CACHE_EXPIRY) :
    (getCache tget (setCache sizeFn tset data st)).1
      = some (if sizeFn ⟨sanitizeDataForCache data, tset, 1⟩ > 500000
          then (sanitizeDataForCache data).take 20
          else sanitizeDataForCache data)
    ∧ sanitizeDataForCache data = (data.take MAX_CACHE_SIZE).map projectItem := by
  have hnot : ¬ (tget - tset > CACHE_EXPIRY) := not_lt.mpr h
  refine ⟨?_, rfl⟩
  by_cases hs : sizeFn ⟨sanitizeDataForCache data, tset, 1⟩ > 500000 <;>
    simp [setCache, getCache, storageSet, hs, hnot]

/-- Witness for C5: caching two concrete items under a small size oracle and
reading them back immediately returns both projections in order. -/
theorem setCache_getCache_roundTrip_witness :
    ((0 : Int) - 0 ≤ CACHE_EXPIRY)
    ∧ (getCache 0 (setCache zeroSize 0 [itemA, itemB] emptyStorage)).1
        = some [projectItem itemA, projectItem itemB] := by
  refine ⟨by decide, ?_⟩
  have h := (setCache_getCache_roundTrip zeroSize 0 0 [itemA, itemB]
    emptyStorage (by decide)).1
  simpa [zeroSize, sanitizeDataForCache, MAX_CACHE_SIZE] using h

/-- Claim C6: a `getCache` performed strictly more than the TTL after the
stored entry's timestamp returns `none`, removes the stored entry as a side
effect of the read, and a subsequent `getCacheInfo` reports that no entry
exists. -/
theorem expiredGetEvictsAndInfoFalse (sizeFn : SizeFn) (st : Storage)
    (cacheData : CacheData) (now : Int)
    (hstored : st CACHE_KEY = some cacheData)
    (hexpired : now - cacheData.timestamp > CACHE_EXPIRY) :
    (getCache now st).1 = none
    ∧ (getCache now st).2 CACHE_KEY = none
    ∧ (getCacheInfo sizeFn (getCache now st).2).exists_ = false := by
  simp [getCache, hstored, hexpired, storageRemove, getCacheInfo]

/-- Witness for C6 at a concrete entry written at time 0 and read at
`CACHE_EXPIRY + 1`. -/
theorem expiredGetEvictsAndInfoFalse_witness :
    ((storageSet emptyStorage CACHE_KEY ⟨[], 0, 1⟩) CACHE_KEY = some ⟨[], 0, 1⟩
      ∧ (CACHE_EXPIRY + 1 : Int) - (0 : Int) > CACHE_EXPIRY)
    ∧ (getCache (CACHE_EXPIRY + 1)
        (storageSet emptyStorage CACHE_KEY ⟨[], 0, 1⟩)).1 = none
    ∧ (getCacheInfo zeroSize
        (getCache (CACHE_EXPIRY + 1)
          (storageSet emptyStorage CACHE_KEY ⟨[], 0, 1⟩)).2).exists_ = false := by
  have h := expiredGetEvictsAndInfoFalse zeroSize
    (storageSet emptyStorage CACHE_KEY ⟨[], 0, 1⟩) ⟨[], 0, 1⟩
    (CACHE_EXPIRY + 1) (by simp [storageSet]) (by decide)
  exact ⟨⟨by simp [storageSet], by decide⟩, h.1, h.2.2⟩

/-- Claim C9: when a remote search session fails, the catch branch of
`doSearch` sets the displayed result set to the same case-insensitive
substring scan over title, user notes and tags that the LocalFilter branch
uses, leaves the component error state untouched, and logs the failure. -/
theorem remoteFailureFallsBackToLocalScan (sid : Nat) (q : String)
    (cards : List Item) (s : OrchState) :
    (orchStep s (OrchEvent.failure sid q cards)).view = localSearchFilter q cards
    ∧ (orchStep s (OrchEvent.failure sid q cards)).error = s.error
    ∧ (orchStep s (OrchEvent.failure sid q cards)).errorsLogged
        = s.errorsLogged + 1
    ∧ fallbackFilter q cards = localSearchFilter q cards :=
  ⟨rfl, rfl, rfl, rfl⟩

/-- Claim C10, counterexample: delete is not optimistic.  With the item of id
"a" displayed, a `handleDelete` whose backend call fails leaves the state —
including the displayed `filteredData` — completely unchanged: the item was
never removed before backend confirmation, and nothing needs to re-appear on
reload. -/
theorem deleteOptimistic_counterexample :
    (handleDelete false "a" cardsStateA).1 = cardsStateA
    ∧ (handleDelete false "a" cardsStateA).1.filteredData = [itemA]
    ∧ itemA.id = "a"
    ∧ (handleDelete false "a" cardsStateA).2 = DeleteAlert.errorAlert :=
  ⟨rfl, rfl, rfl, rfl⟩

/-- Claim C10 amended: `handleDelete` is pessimistic.  The item is removed
from the in-memory collection and the displayed view only after the backend
confirms the deletion (in which case no item with the deleted id remains in
the collection and a success alert is shown); on backend failure the state is
unchanged and an error alert is shown. -/
theorem deleteIsPessimistic (itemId : String) (s : CardsState) :
    ((handleDelete true itemId s).1.cardsData
        = s.cardsData.filter (fun item => item.id ≠ itemId)
      ∧ (handleDelete true itemId s).1.filteredData
        = s.cardsData.filter (fun item => item.id ≠ itemId)
      ∧ (handleDelete true itemId s).2 = DeleteAlert.successAlert
      ∧ ∀ item ∈ (handleDelete true itemId s).1.cardsData, item.id ≠ itemId)
    ∧ (handleDelete false itemId s).1 = s
    ∧ (handleDelete false itemId s).2 = DeleteAlert.errorAlert := by
  refine ⟨⟨rfl, rfl, rfl, ?_⟩, rfl, rfl⟩
  intro item hmem
  simp [handleDelete] at hmem
  exact hmem.2

/-- Witness for the amended C10 at the concrete state holding `itemA`. -/
theorem deleteIsPessimistic_witness :
    (handleDelete true "a" cardsStateA).1.filteredData = []
    ∧ (handleDelete false "a" cardsStateA).1 = cardsStateA := by
  have h := deleteIsPessimistic "a" cardsStateA
  refine ⟨?_, h.2.1⟩
  rw [h.1.2.1]
  decide

/-- Claim C1, counterexample: the last-dispatched-session-wins guarantee
fails on the failure path.  Session 1 ("pasta recipe") and then session 2
("pasta machine") are dispatched; session 2's result arrives and is shown;
then session 1's failure arrives late, and the catch branch overwrites the
view with session 1's local fallback — the late-arriving result of a
superseded session IS applied. -/
theorem staleFailureClobbersView_counterexample :
    (orchRun ⟨0, [], none, 0⟩
      [ OrchEvent.keystroke "pasta recipe" []
      , OrchEvent.keystroke "pasta machine" []
      , OrchEvent.success 2 [itemB] ]).view = [itemB]
    ∧ (orchRun ⟨0, [], none, 0⟩
      [ OrchEvent.keystroke "pasta recipe" []
      , OrchEvent.keystroke "pasta machine" []
      , OrchEvent.success 2 [itemB]
      , OrchEvent.failure 1 "pasta recipe" [] ]).view = []
    ∧ ([] : List Item) ≠ [itemB] := by
  refine ⟨by decide, by decide, by decide⟩

/-- Claim C1 amended: the session-id guard protects the success path only.
Once a session with id above `N` has been dispatched (the counter exceeds
`N`), a late success of session `N` is never applied, whatever events happen
in between; a late failure, by contrast, unconditionally overwrites the view
with its local fallback. -/
theorem lateResultHandling (s : OrchState) (N : Nat) (results : List Item)
    (es : List OrchEvent) (hN : N < s.searchId) :
    orchStep (orchRun s es) (OrchEvent.success N results) = orchRun s es
    ∧ ∀ sid q cards,
        (orchStep (orchRun s es) (OrchEvent.failure sid q cards)).view
          = fallbackFilter q cards := by
  have hmono := orchRun_searchId_mono s es
  constructor
  · have hne : (orchRun s es).searchId ≠ N := by omega
    simp [orchStep, hne]
  · intro sid q cards
    rfl

/-- Witness for the amended C1: with the counter at 2, a late success of
session 1 changes nothing. -/
theorem lateResultHandling_witness :
    (1 < (⟨2, [itemB], none, 0⟩ : OrchState).searchId)
    ∧ orchStep (orchRun ⟨2, [itemB], none, 0⟩ []) (OrchEvent.success 1 [itemA])
        = orchRun (⟨2, [itemB], none, 0⟩ : OrchState) [] :=
  ⟨by decide,
    (lateResultHandling ⟨2, [itemB], none, 0⟩ 1 [itemA] [] (by decide)).1⟩

/-- Claim C8, counterexample: the cards cache is not owner-scoped.  alice
signs in and her item is cached; alice signs out and bob signs in; a cache
read in bob's session (well within the TTL) returns alice's cached item —
the previous owner's data — because `CACHE_KEY` has no owner component and
`handleLogout` does not clear the cards cache. -/
theorem cacheCrossOwner_counterexample :
    bobSession.currentUser = some "bob"
    ∧ itemA.user_id = "alice"
    ∧ ("alice" : String) ≠ "bob"
    ∧ (getCache 1000 bobSession.storage).1 = some [projectItem itemA]
    ∧ some [projectItem itemA] ≠ (none : Option (List CacheItem)) := by
  refine ⟨rfl, rfl, by decide, by decide, by simp⟩

/-- Claim C8 amended: ranking and pagination queries are owner-scoped —
every row returned by `search_content` belongs to the requested owner, and
so does every row returned by the Supabase query of `getVideoData` — but the
cache store is keyed by a constant owner-free key and survives a sign-out /
sign-in unchanged, so a cache read after an owner switch sees the previous
owner's entry. -/
theorem ownerScoping (F : PgFns) (content : List ContentRow) (q uid : String)
    (threshold : ℚ) (maxResults : Nat) (table : List Item) (u2 : String)
    (s : AppSession) :
    (∀ p ∈ search_content F content q uid threshold maxResults,
        p.1.user_id = uid)
    ∧ (∀ r ∈ getVideoDataModel table u2, r.user_id = u2)
    ∧ (signIn u2 (signOut s)).storage = s.storage := by
  refine ⟨?_, ?_, rfl⟩
  · intro p hp
    unfold search_content at hp
    have hp2 := (mem_stableSortBy _ _ _).mp (List.mem_of_mem_take hp)
    simp only [List.mem_filter, List.mem_map] at hp2
    obtain ⟨⟨c, hc, hpc⟩, _⟩ := hp2
    subst hpc
    exact of_decide_eq_true hc.1.2
  · intro r hr
    unfold getVideoDataModel at hr
    have hr2 := (mem_stableSortBy _ _ _).mp hr
    exact of_decide_eq_true (List.mem_filter.mp hr2).2

/-- Witness for the amended C8: concrete owner-scoped pagination read and the
storage-preservation equation at the concrete alice-to-bob switch. -/
theorem ownerScoping_witness :
    (itemA ∈ getVideoDataModel [itemA, itemC] "alice" ∧ itemA.user_id = "alice")
    ∧ (signIn "bob" (signOut aliceSession)).storage = aliceSession.storage :=
  ⟨⟨by decide,
      (ownerScoping pgFnsC2 [] "" "" 0 0 [itemA, itemC] "alice"
        aliceSession).2.1 itemA (by decide)⟩,
    (ownerScoping pgFnsC2 [] "" "" 0 0 [itemA, itemC] "alice"
      aliceSession).2.2⟩

/-- Claim C3, counterexample: the merge does not deduplicate by id.  With
`itemA` already in memory and the fetch returning the full collection again
(`getVideoData` ignores its offset and limit arguments), the merged
collection holds the item with id "a" twice, although the load-more request
was issued for offset 50, limit 50. -/
theorem loadMoreNoDedup_counterexample :
    ((loadMoreCards (getVideoDataFetch [itemA] "alice") zeroSize 0
        cardsStateA).1.cardsData.filter (fun item => item.id = "a")).length = 2
    ∧ (loadMoreCards (getVideoDataFetch [itemA] "alice") zeroSize 0
        cardsStateA).2 = [(50, 50)]
    ∧ (2 : Nat) ≠ 1 :=
  ⟨by decide, by decide, by decide⟩

/-- Claim C3 amended: `loadMoreCards` is a no-op (no fetch, no state change)
when a load is in flight or `hasMore` is false — in particular arbitrarily
many repeated calls past `hasMore = false` never issue a fetch.  Otherwise,
for an authenticated user, it issues exactly one fetch with offset = next
page index times the page size and limit = the page size 50; when that fetch
returns a non-empty row list the rows are appended to the in-memory
collection WITHOUT deduplication by id, the merged collection is re-sorted
by the active sort key, `hasMore` becomes (returned count == page size), and
the cache write is invoked with the full merged sorted collection. -/
theorem loadMoreBehaviour (fetch : Nat → Nat → FetchResult) (sizeFn : SizeFn)
    (now : Int) (s : CardsState) :
    ((s.loadingMore = true ∨ s.hasMore = false) →
        loadMoreCards fetch sizeFn now s = (s, []))
    ∧ (s.hasMore = false →
        ∀ n, loadMoreIter fetch sizeFn now n s = (s, []))
    ∧ (∀ u newData,
        s.loadingMore = false → s.hasMore = true → s.userId = some u →
        fetch ((s.currentPage + 1) * PAGE_SIZE) PAGE_SIZE
          = FetchResult.ok newData →
        newData.length > 0 →
        loadMoreCards fetch sizeFn now s
          = ({ s with
                hasMore := newData.length = PAGE_SIZE
                currentPage := s.currentPage + 1
                cardsData := sortCards (s.cardsData ++ newData) s.sortOrder
                filteredData := if jsTrim s.searchTerm = ""
                  then sortCards (s.cardsData ++ newData) s.sortOrder
                  else s.filteredData
                storage := setCache sizeFn now
                  (sortCards (s.cardsData ++ newData) s.sortOrder) s.storage
                loadingMore := false },
              [((s.currentPage + 1) * PAGE_SIZE, PAGE_SIZE)])) := by
  have hnoop : (s.loadingMore = true ∨ s.hasMore = false) →
      loadMoreCards fetch sizeFn now s = (s, []) := by
    intro h
    rcases h with h | h <;> simp [loadMoreCards, h]
  refine ⟨hnoop, ?_, ?_⟩
  · intro hfalse n
    induction n with
    | zero => rfl
    | succ n ih =>
        simp [loadMoreIter, hnoop (Or.inr hfalse), ih]
  · intro u newData h1 h2 h3 hf hlen
    simp [loadMoreCards, h1, h2, h3, hf, hlen]

/-- Witness for the amended C3: three repeated calls past `hasMore = false`
issue no fetch, and a live call merges the fetched page and issues exactly
the (offset 50, limit 50) request. -/
theorem loadMoreBehaviour_witness :
    loadMoreIter (fun _ _ => FetchResult.ok [itemB]) zeroSize 0 3
        { cardsStateA with hasMore := false }
      = ({ cardsStateA with hasMore := false }, [])
    ∧ (loadMoreCards (fun _ _ => FetchResult.ok [itemB]) zeroSize 0
        cardsStateA).2 = [(50, 50)] := by
  constructor
  · exact (loadMoreBehaviour (fun _ _ => FetchResult.ok [itemB]) zeroSize 0
      { cardsStateA with hasMore := false }).2.1 rfl 3
  · rw [(loadMoreBehaviour (fun _ _ => FetchResult.ok [itemB]) zeroSize 0
      cardsStateA).2.2 "alice" [itemB] rfl rfl rfl rfl (by decide)]
    simp [cardsStateA, PAGE_SIZE]

/-- Claim C2, counterexample: the SQL `ORDER BY similarity DESC` has no
tie-break.  Two rows with equal scores and different `date_added` come back
in table (insertion) order: with the older row first in the table the result
is older-first — not newest-first — and reversing the table reverses the
tie order, so the order IS insertion-order-dependent. -/
theorem tieBreak_counterexample :
    (search_content pgFnsC2 [rowOlder, rowNewer] "pasta" "alice" 1
        100).map (fun p => p.1.id) = ["older", "newer"]
    ∧ (search_content pgFnsC2 [rowOlder, rowNewer] "pasta" "alice" 1
        100).map Prod.snd = [2, 2]
    ∧ rowOlder.date_added < rowNewer.date_added
    ∧ (search_content pgFnsC2 [rowNewer, rowOlder] "pasta" "alice" 1
        100).map (fun p => p.1.id) = ["newer", "older"]
    ∧ (["older", "newer"] : List String) ≠ ["newer", "older"] :=
  ⟨by decide, by decide, by decide, by decide, by decide⟩

/-- Claim C2 amended: the result of the ranking engine is ordered by
descending score only; the SQL specifies no tie-break key, so equal-score
items keep the order in which the table rows were scanned (insertion
order), not `createdAt` order. -/
theorem searchResultsSortedByScore (F : PgFns) (content : List ContentRow)
    (q uid : String) (threshold : ℚ) (maxResults : Nat) :
    (search_content F content q uid threshold maxResults).Pairwise
      (fun a b => b.2 ≤ a.2) := by
  unfold search_content
  refine List.Pairwise.sublist (List.take_sublist _ _) ?_
  have hs := sorted_stableSortBy
    (r := fun (a b : ContentRow × ℚ) => decide (b.2 ≤ a.2))
    (fun a b h => by
      simp only [decide_eq_false_iff_not, not_le] at h
      simp [le_of_lt h])
    (fun a b c h1 h2 => by
      simp only [decide_eq_true_eq] at h1 h2 ⊢
      exact le_trans h2 h1)
    (((content.filter (fun c => c.user_id = uid)).filter
        (fun c => isCandidate F c q threshold (F.embedQuery q))).map
        (fun c => (c, rowScore F c q (F.embedQuery q))) |>.filter
      (fun p => threshold < p.2))
  exact hs.imp (fun h => by simpa using h)

/-- Claim C7, counterexample: the trigram word-similarity signal does not
range over sourceName.  For a row whose channel name scores 9 under
`strict_word_similarity` while its title scores 2 under fuzzy `similarity`,
the engine returns score 2 (the channel word-similarity is never computed),
while the claimed formula — max over all three signals on all five fields
including sourceName — gives 9. -/
theorem wordSimChannel_counterexample :
    (search_content pgFnsC7 [rowChan] "query" "alice" 1 100).map Prod.snd = [2]
    ∧ claimScoreC7 pgFnsC7 rowChan "query" (pgFnsC7.embedQuery "query") = 9
    ∧ ((2 : ℚ)) ≠ 9 :=
  ⟨by decide, by decide, by decide⟩

/-- Claim C7 amended: the per-item score is the maximum of the fuzzy
similarity over title, summary, tags, sourceName and userNotes, the trigram
word similarity over title, summary, tags and userNotes (sourceName
excluded), and the title-embedding cosine similarity (0 when an embedding is
absent); a row is a candidate exactly under the claimed inclusion predicate;
the result keeps exactly the owner's candidate rows with score strictly
above the threshold, ordered by descending score, capped at `max_results`;
and the defaults are threshold 1/10 and cap 100. -/
theorem searchContentMatchesAmendedSpec (F : PgFns) (content : List ContentRow)
    (q uid : String) (threshold : ℚ) (maxResults : Nat) :
    search_content F content q uid threshold maxResults
      = (stableSortBy (fun a b => b.2 ≤ a.2)
          ((((content.filter (fun c => c.user_id = uid)).filter
              (fun c => claimCandidate F c q threshold (F.embedQuery q))).map
              (fun c => (c, specScoreAmended F c q (F.embedQuery q)))).filter
            (fun p => threshold < p.2))).take maxResults
    ∧ search_content F content q uid
        = search_content F content q uid (1/10) 100 := by
  constructor
  · have hcand : (fun c => isCandidate F c q threshold (F.embedQuery q))
        = (fun c => claimCandidate F c q threshold (F.embedQuery q)) :=
      funext fun c => isCandidate_eq_claimCandidate F c q threshold (F.embedQuery q)
    have hscore : (fun c => (c, rowScore F c q (F.embedQuery q)))
        = (fun c => (c, specScoreAmended F c q (F.embedQuery q))) :=
      funext fun c => by rw [rowScore_eq_specScoreAmended]
    simp only [search_content]
    rw [hcand, hscore]
  · rfl
